import Mathlib

/-!
Verification of the hook-reconciliation core of `ccgadget`
(src/server/cli/src/main.rs): a shallow embedding of the JSON data model
and of the functions `setup_hook_for_event`, `exact_hook_exists`,
`is_exact_ccgadget_hook`, `any_ccgadget_hook_exists`,
`hook_group_contains_command` and the per-event loop of
`setup_claude_hooks`, together with theorems settling the spec claims.

Conventions of the embedding:
* `serde_json::Value` becomes the inductive `Json`; the object map is an
  association list, `insert` replaces the value of an existing key in
  place and appends otherwise (key/value semantics only are used in
  theorems).
* `settings["hooks"] = ...` (serde's `IndexMut`) inserts into an object,
  turns `null` into a one-key object, and panics on any other value;
  the panic is modelled as an `Except.error` (both abort the run before
  any write).
* Rust `str::contains` becomes char-list infix containment.
* The two interactive prompts are external collaborators that always
  return a `HookAction`; they are passed in as values, and the result
  records which prompt (if any) was consulted, so that "without
  prompting" is expressible.
-/

/-- Embedding of `serde_json::Value`. -/
inductive Json where
  | null : Json
  | bool : Bool → Json
  | num : Int → Json
  | str : String → Json
  | arr : List Json → Json
  | obj : List (String × Json) → Json

/-- Lookup of a key in a JSON object's field list (`Map::get`). -/
def lookupField : List (String × Json) → String → Option Json
  | [], _ => none
  | (k', v) :: rest, k => if k' = k then some v else lookupField rest k

/-- `Map::insert`: replace the value of an existing key in place,
append otherwise. -/
def insertField : List (String × Json) → String → Json → List (String × Json)
  | [], k, v => [(k, v)]
  | (k', v') :: rest, k, v =>
      if k' = k then (k, v) :: rest else (k', v') :: insertField rest k v

/-- `Value::get(&str)`: only objects yield fields. -/
def Json.get : Json → String → Option Json
  | .obj fields, k => lookupField fields k
  | _, _ => none

/-- `Value::as_str`. -/
def Json.asStr : Json → Option String
  | .str s => some s
  | _ => none

/-- `Value::as_array`. -/
def Json.asArr : Json → Option (List Json)
  | .arr xs => some xs
  | _ => none

/-- `value[key] = v` via serde's `IndexMut`: inserts into an object,
turns `null` into a fresh one-key object, and panics otherwise; the
panic is modelled as an error. -/
def Json.indexSet : Json → String → Json → Except String Json
  | .obj fields, k, v => .ok (.obj (insertField fields k v))
  | .null, k, v => .ok (.obj [(k, v)])
  | _, _, _ => .error "cannot access key in non-object JSON value"

/-- Rust `s.contains(pat)`: substring containment, as char-list infix. -/
def strContains (s pat : String) : Bool := decide (pat.toList <:+: s.toList)

/-- `enum HookAction` from main.rs. -/
inductive HookAction where
  | Replace : HookAction
  | Append : HookAction
  | Skip : HookAction
deriving Repr, DecidableEq

/-- `enum HookSetupResult` from main.rs. -/
inductive HookSetupResult where
  | Added : HookSetupResult
  | Skipped : HookSetupResult
  | AlreadyExists : HookSetupResult
deriving Repr, DecidableEq

/-- Which interactive prompt (if any) a decision consulted. -/
inductive PromptUsed where
  | noPrompt : PromptUsed
  | fixPrompt : PromptUsed
  | otherPrompt : PromptUsed
deriving Repr, DecidableEq

/-- `is_exact_ccgadget_hook` (main.rs): matcher read as a string with
default `""`, `hooks` must be an array with exactly one entry of
`type == "command"` and `command == target_command`. -/
def is_exact_ccgadget_hook (hook_group : Json) (target_command : String) : Bool :=
  (((hook_group.get "matcher").bind Json.asStr).getD "" == "") &&
    match (hook_group.get "hooks").bind Json.asArr with
    | some [hook] =>
        (((hook.get "type").bind Json.asStr).getD "" == "command") &&
          (((hook.get "command").bind Json.asStr).getD "" == target_command)
    | some _ => false
    | none => false

/-- `exact_hook_exists` (main.rs). -/
def exact_hook_exists (event_hooks : Json) (target_command : String) : Bool :=
  match event_hooks.asArr with
  | some hooks_array => hooks_array.any fun g => is_exact_ccgadget_hook g target_command
  | none => false

/-- `hook_group_contains_command` (main.rs): some entry's `command`
contains `target_command` as a substring. -/
def hook_group_contains_command (hook_group : Json) (target_command : String) : Bool :=
  match (hook_group.get "hooks").bind Json.asArr with
  | some hooks =>
      hooks.any fun hook =>
        match (hook.get "command").bind Json.asStr with
        | some command => strContains command target_command
        | none => false
  | none => false

/-- `any_ccgadget_hook_exists` (main.rs). -/
def any_ccgadget_hook_exists (event_hooks : Json) (target_command : String) : Bool :=
  match event_hooks.asArr with
  | some hooks_array =>
      hooks_array.any fun g => hook_group_contains_command g target_command
  | none => false

/-- The `has_other_hooks` test of `setup_hook_for_event`: the event value
is a non-empty array. -/
def has_other_hooks (event_hooks : Json) : Bool :=
  match event_hooks.asArr with
  | some a => !a.isEmpty
  | none => false

/-- The `has_non_ccgadget_hooks` test of `setup_hook_for_event`: some
group contains no entry whose command contains the literal `"ccgadget"`. -/
def has_non_ccgadget_hooks (event_hooks : Json) : Bool :=
  match event_hooks.asArr with
  | some a => a.any fun g => !hook_group_contains_command g "ccgadget"
  | none => false

/-- The decision block of `setup_hook_for_event` (main.rs lines 742-774),
reached only when no exact match exists; the two interactive prompts are
passed in as the values they would return, and the result records which
prompt was consulted. -/
def resolve_hook_action (event_hooks : Json) (hook_command : String)
    (force auto_approve : Bool) (prompt_fix prompt_other : HookAction) :
    HookAction × PromptUsed :=
  if any_ccgadget_hook_exists event_hooks hook_command then
    if force then (.Replace, .noPrompt)
    else if auto_approve then (.Replace, .noPrompt)
    else (prompt_fix, .fixPrompt)
  else if has_other_hooks event_hooks then
    if has_non_ccgadget_hooks event_hooks then
      if auto_approve then (.Append, .noPrompt)
      else (prompt_other, .otherPrompt)
    else (.Append, .noPrompt)
  else (.Append, .noPrompt)

/-- The hook entry `{"type": "command", "command": cmd}` built by
`setup_hook_for_event`. -/
def mk_hook_entry (cmd : String) : Json :=
  .obj [("type", .str "command"), ("command", .str cmd)]

/-- The hook group `{"matcher": "", "hooks": [entry]}` built by
`setup_hook_for_event`. -/
def mk_hook_group (cmd : String) : Json :=
  .obj [("matcher", .str ""), ("hooks", .arr [mk_hook_entry cmd])]

/-- The one-group event list built by Replace and create-new. -/
def mk_hook_config (cmd : String) : Json := .arr [mk_hook_group cmd]

/-- Write back the (mutated) hooks map entry for one event:
`hooks.insert(event_name, v)` followed by storing the hooks object in the
settings document. -/
def putHooks (sfields hooks : List (String × Json)) (e : String) (v : Json) : Json :=
  .obj (insertField sfields "hooks" (.obj (insertField hooks e v)))

/-- The Append mutation of `setup_hook_for_event`: if a related ccgadget
hook was detected, first `retain` only the groups that do not contain the
literal `"ccgadget"`, then push the fresh group onto the end. -/
def append_mutation (arr0 : List Json) (any_cc : Bool) (hook_command : String) : List Json :=
  (if any_cc then arr0.filter fun g => !hook_group_contains_command g "ccgadget"
   else arr0) ++ [mk_hook_group hook_command]

/-- The branch of `setup_hook_for_event` for an event that already has an
entry `ev` in the hooks map. -/
def setup_with_existing (sfields hooks : List (String × Json))
    (event_name hook_command : String) (force auto_approve : Bool)
    (prompt_fix prompt_other : HookAction) (ev : Json) :
    Except String (Json × HookSetupResult × PromptUsed) :=
  if exact_hook_exists ev hook_command then
    .ok (.obj sfields, .AlreadyExists, .noPrompt)
  else
    match resolve_hook_action ev hook_command force auto_approve prompt_fix prompt_other with
    | (.Skip, used) => .ok (.obj sfields, .Skipped, used)
    | (.Replace, used) =>
        .ok (putHooks sfields hooks event_name (mk_hook_config hook_command), .Added, used)
    | (.Append, used) =>
        match ev.asArr with
        | none => .error "Event hooks must be an array"
        | some arr0 =>
            .ok (putHooks sfields hooks event_name
                  (.arr (append_mutation arr0
                    (any_ccgadget_hook_exists ev hook_command) hook_command)),
                .Added, used)

/-- `setup_hook_for_event` after the hooks object has been ensured:
dispatch on whether the event already has an entry. -/
def setup_in_doc (sfields : List (String × Json)) (event_name hook_command : String)
    (force auto_approve : Bool) (prompt_fix prompt_other : HookAction) :
    Except String (Json × HookSetupResult × PromptUsed) :=
  match lookupField sfields "hooks" with
  | some (.obj hooks) =>
      match lookupField hooks event_name with
      | some ev =>
          setup_with_existing sfields hooks event_name hook_command
            force auto_approve prompt_fix prompt_other ev
      | none =>
          .ok (putHooks sfields hooks event_name (mk_hook_config hook_command),
              .Added, .noPrompt)
  | _ => .error "Failed to get hooks object"

/-- The first step of `setup_hook_for_event`: ensure the `hooks` key
exists (`settings["hooks"] = json!({})` when absent). -/
def ensure_hooks (settings : Json) : Except String Json :=
  if (settings.get "hooks").isSome then .ok settings
  else settings.indexSet "hooks" (.obj [])

/-- `setup_hook_for_event` (main.rs): returns the updated settings
document, the per-event result, and which prompt (if any) was consulted. -/
def setup_hook_for_event (settings : Json) (event_name hook_command : String)
    (force auto_approve : Bool) (prompt_fix prompt_other : HookAction) :
    Except String (Json × HookSetupResult × PromptUsed) :=
  match ensure_hooks settings with
  | .error msg => .error msg
  | .ok (.obj sfields) =>
      setup_in_doc sfields event_name hook_command force auto_approve prompt_fix prompt_other
  | .ok _ => .error "Failed to get hooks object"

/-- The per-event loop of `setup_claude_hooks` (main.rs): processes the
desired bindings in order over the in-memory document; the interactive
prompts are responder functions keyed by event name. Returns the final
document and the per-event results. -/
def run_hooks_setup (settings : Json) (config : List (String × String))
    (force auto_approve : Bool) (prompt_fix prompt_other : String → HookAction) :
    Except String (Json × List (String × HookSetupResult)) :=
  match config with
  | [] => .ok (settings, [])
  | (e, c) :: rest =>
      match setup_hook_for_event settings e c force auto_approve
          (prompt_fix e) (prompt_other e) with
      | .error msg => .error msg
      | .ok (s', r, _) =>
          match run_hooks_setup s' rest force auto_approve prompt_fix prompt_other with
          | .error msg => .error msg
          | .ok (s'', rs) => .ok (s'', (e, r) :: rs)

/-- `get_all_hooks_config` (main.rs). -/
def get_all_hooks_config : List (String × String) :=
  [("UserPromptSubmit", "ccgadget trigger"),
   ("PreToolUse", "ccgadget trigger"),
   ("PostToolUse", "ccgadget trigger"),
   ("Notification", "ccgadget trigger"),
   ("Stop", "ccgadget trigger")]

/-- The event list currently stored for `e`: `settings.hooks[e]`. -/
def eventList (settings : Json) (e : String) : Option Json :=
  (settings.get "hooks").bind fun h => h.get e

/-! ## Typed data model of the spec (for refinement claims) -/

/-- The spec's `HookEntry`: `{type: string, command: string}`. -/
structure HookEntry where
  type : String
  command : String
deriving Repr, DecidableEq

/-- The spec's `HookGroup`: `{matcher: string, hooks: [HookEntry]}`. -/
structure HookGroup where
  matcher : String
  hooks : List HookEntry
deriving Repr, DecidableEq

/-- JSON encoding of a typed hook entry. -/
def HookEntry.toJson (e : HookEntry) : Json :=
  .obj [("type", .str e.type), ("command", .str e.command)]

/-- JSON encoding of a typed hook group. -/
def HookGroup.toJson (g : HookGroup) : Json :=
  .obj [("matcher", .str g.matcher), ("hooks", .arr (g.hooks.map HookEntry.toJson))]

/-- JSON encoding of a typed hook-group list. -/
def encodeGroups (gl : List HookGroup) : Json := .arr (gl.map HookGroup.toJson)

/-- Spec-side `IsExactMatch`, following the spec's words: some group has
`matcher == ""`, exactly one entry, of type `"command"` with command
string-equal to the target. -/
def IsExactMatchSpec (gl : List HookGroup) (target : String) : Bool :=
  gl.any fun g =>
    g.matcher == "" &&
      match g.hooks with
      | [e] => e.type == "command" && e.command == target
      | _ => false

/-- Spec-side `HasUnrelatedGroups`, following the claim's words: some
group's entries, taken as a whole, do not satisfy "every entry's command
contains targetCommand". -/
def HasUnrelatedGroupsSpec (gl : List HookGroup) (target : String) : Bool :=
  gl.any fun g => !(g.hooks.all fun e => strContains e.command target)

/-! ## Basic lemmas about the embedding -/

theorem lookupField_insert_self (fs : List (String × Json)) (k : String) (v : Json) :
    lookupField (insertField fs k v) k = some v := by
  induction fs with
  | nil => simp [insertField, lookupField]
  | cons p rest ih =>
      obtain ⟨k', v'⟩ := p
      by_cases h : k' = k
      · simp [insertField, lookupField, h]
      · simp [insertField, lookupField, h, ih]

theorem lookupField_insert_ne (fs : List (String × Json)) {k k' : String} (v : Json)
    (h : k' ≠ k) : lookupField (insertField fs k v) k' = lookupField fs k' := by
  have h' : ¬(k = k') := fun hh => h hh.symm
  induction fs with
  | nil => simp [insertField, lookupField, h']
  | cons p rest ih =>
      obtain ⟨k'', v''⟩ := p
      by_cases hk : k'' = k
      · subst hk
        simp [insertField, lookupField, h']
      · by_cases hk2 : k'' = k' <;> simp [insertField, hk, lookupField, hk2, ih, h, h']

theorem strContains_refl (s : String) : strContains s s = true := by
  simp [strContains]

theorem strContains_trans {a b c : String} (h1 : strContains b a = true)
    (h2 : strContains c b = true) : strContains c a = true := by
  simp only [strContains, decide_eq_true_eq] at h1 h2 ⊢
  exact h1.trans h2

theorem get_putHooks_hooks (sfields hooks : List (String × Json)) (e : String) (v : Json) :
    (putHooks sfields hooks e v).get "hooks" = some (.obj (insertField hooks e v)) := by
  simp [putHooks, Json.get, lookupField_insert_self]

theorem get_putHooks_ne (sfields hooks : List (String × Json)) (e : String) (v : Json)
    {k : String} (h : k ≠ "hooks") :
    (putHooks sfields hooks e v).get k = lookupField sfields k := by
  simp [putHooks, Json.get, lookupField_insert_ne _ _ h]

theorem eventList_putHooks_self (sfields hooks : List (String × Json)) (e : String) (v : Json) :
    eventList (putHooks sfields hooks e v) e = some v := by
  unfold eventList
  rw [get_putHooks_hooks]
  simp [Json.get, lookupField_insert_self]

theorem eventList_putHooks_ne (sfields hooks : List (String × Json)) (e : String) (v : Json)
    {e' : String} (h : e' ≠ e) :
    eventList (putHooks sfields hooks e v) e' = lookupField hooks e' := by
  unfold eventList
  rw [get_putHooks_hooks]
  simp [Json.get, lookupField_insert_ne _ _ h]

theorem is_exact_mk_hook_group (c : String) :
    is_exact_ccgadget_hook (mk_hook_group c) c = true := by
  simp [is_exact_ccgadget_hook, mk_hook_group, mk_hook_entry, Json.get, lookupField, Json.asStr,
    Json.asArr]

theorem exact_hook_exists_mk_config (c : String) :
    exact_hook_exists (mk_hook_config c) c = true := by
  simp [exact_hook_exists, mk_hook_config, Json.asArr, is_exact_mk_hook_group]

theorem exact_hook_exists_append (l : List Json) (c : String) :
    exact_hook_exists (.arr (l ++ [mk_hook_group c])) c = true := by
  simp [exact_hook_exists, Json.asArr, is_exact_mk_hook_group]

theorem eventList_obj (sfields hooks : List (String × Json))
    (hh : lookupField sfields "hooks" = some (.obj hooks)) (e : String) :
    eventList (.obj sfields) e = lookupField hooks e := by
  unfold eventList
  simp [Json.get, hh]

theorem ensure_hooks_ok {s t : Json} (h : ensure_hooks s = .ok t) :
    (∀ k, k ≠ "hooks" → t.get k = s.get k) ∧
      (∀ e', eventList t e' = eventList s e') ∧ ∃ sfields, t = .obj sfields := by
  unfold ensure_hooks at h
  by_cases hs : (s.get "hooks").isSome
  · rw [if_pos hs] at h
    cases h
    refine ⟨fun k _ => rfl, fun e' => rfl, ?_⟩
    cases s <;> simp [Json.get] at hs ⊢
  · rw [if_neg hs] at h
    have hnone : s.get "hooks" = none := by
      cases hG : s.get "hooks" <;> simp [hG] at hs ⊢
    cases s with
    | null =>
        simp [Json.indexSet] at h
        subst h
        refine ⟨?_, ?_, [("hooks", .obj [])], rfl⟩
        · intro k hk
          have hk' : ¬("hooks" = k) := fun hh => hk hh.symm
          simp [Json.get, lookupField, hk']
        · intro e'
          simp [eventList, Json.get, lookupField]
    | obj fields =>
        simp [Json.indexSet] at h
        subst h
        refine ⟨?_, ?_, _, rfl⟩
        · intro k hk
          simp [Json.get, lookupField_insert_ne _ _ hk]
        · intro e'
          have hf : lookupField fields "hooks" = none := by simpa [Json.get] using hnone
          unfold eventList
          simp [Json.get, lookupField_insert_self, hf, lookupField]
    | bool b => simp [Json.indexSet] at h
    | num n => simp [Json.indexSet] at h
    | str s => simp [Json.indexSet] at h
    | arr a => simp [Json.indexSet] at h

theorem setup_with_existing_cases {sfields hooks : List (String × Json)} {e c : String}
    {f a : Bool} {pf po : HookAction} {ev s' : Json} {r : HookSetupResult} {pu : PromptUsed}
    (h : setup_with_existing sfields hooks e c f a pf po ev = .ok (s', r, pu)) :
    (s' = .obj sfields ∧
        (r = .Skipped ∨ (r = .AlreadyExists ∧ exact_hook_exists ev c = true))) ∨
      (∃ v, s' = putHooks sfields hooks e v ∧ r = .Added ∧
        exact_hook_exists v c = true) := by
  unfold setup_with_existing at h
  split at h
  · cases h
    next hex => exact Or.inl ⟨rfl, Or.inr ⟨rfl, hex⟩⟩
  · split at h
    · cases h
      exact Or.inl ⟨rfl, Or.inl rfl⟩
    · cases h
      exact Or.inr ⟨mk_hook_config c, rfl, rfl, exact_hook_exists_mk_config c⟩
    · split at h
      · cases h
      · cases h
        refine Or.inr ⟨_, rfl, rfl, ?_⟩
        unfold append_mutation
        exact exact_hook_exists_append _ c

theorem setup_in_doc_cases {sfields : List (String × Json)} {e c : String}
    {f a : Bool} {pf po : HookAction} {s' : Json} {r : HookSetupResult} {pu : PromptUsed}
    (h : setup_in_doc sfields e c f a pf po = .ok (s', r, pu)) :
    ∃ hooks, lookupField sfields "hooks" = some (.obj hooks) ∧
      ((s' = .obj sfields ∧
          (r = .Skipped ∨ (r = .AlreadyExists ∧
            ∃ ev, lookupField hooks e = some ev ∧ exact_hook_exists ev c = true))) ∨
        (∃ v, s' = putHooks sfields hooks e v ∧ r = .Added ∧
          exact_hook_exists v c = true)) := by
  unfold setup_in_doc at h
  split at h
  · next hooks hh =>
      refine ⟨hooks, hh, ?_⟩
      split at h
      · next ev hev =>
          rcases setup_with_existing_cases h with ⟨hs, hr | ⟨hr, hx⟩⟩ | ⟨v, hs, hr, hx⟩
          · exact Or.inl ⟨hs, Or.inl hr⟩
          · exact Or.inl ⟨hs, Or.inr ⟨hr, ev, hev, hx⟩⟩
          · exact Or.inr ⟨v, hs, hr, hx⟩
      · cases h
        exact Or.inr ⟨mk_hook_config c, rfl, rfl, exact_hook_exists_mk_config c⟩
  · cases h

theorem setup_ok_props {s : Json} {e c : String} {f a : Bool} {pf po : HookAction}
    {s' : Json} {r : HookSetupResult} {pu : PromptUsed}
    (h : setup_hook_for_event s e c f a pf po = .ok (s', r, pu)) :
    (∀ k, k ≠ "hooks" → s'.get k = s.get k) ∧
      (∀ e', e' ≠ e → eventList s' e' = eventList s e') ∧
      (r ≠ .Skipped → ∃ v, eventList s' e = some v ∧ exact_hook_exists v c = true) := by
  unfold setup_hook_for_event at h
  split at h
  · cases h
  · next het =>
      obtain ⟨hget, hevl, _⟩ := ensure_hooks_ok het
      obtain ⟨hooks, hh, hcases⟩ := setup_in_doc_cases h
      rcases hcases with ⟨hs, hr⟩ | ⟨v, hs, hr, hx⟩
      · subst hs
        refine ⟨hget, fun e' _ => hevl e', ?_⟩
        intro hrs
        rcases hr with hr | ⟨hr, ev, hev, hx⟩
        · exact absurd hr hrs
        · exact ⟨ev, by rw [eventList_obj _ _ hh]; exact hev, hx⟩
      · subst hs
        refine ⟨?_, ?_, ?_⟩
        · intro k hk
          rw [get_putHooks_ne _ _ _ _ hk, ← hget k hk]
          simp [Json.get]
        · intro e' he'
          rw [eventList_putHooks_ne _ _ _ _ he', ← hevl e', eventList_obj _ _ hh]
        · intro _
          exact ⟨v, eventList_putHooks_self _ _ _ _, hx⟩
  · cases h

theorem setup_in_doc_eq_existing {sfields hooks : List (String × Json)} {e : String}
    {ev : Json} (c : String) (f a : Bool) (pf po : HookAction)
    (hh : lookupField sfields "hooks" = some (.obj hooks))
    (hhe : lookupField hooks e = some ev) :
    setup_in_doc sfields e c f a pf po =
      setup_with_existing sfields hooks e c f a pf po ev := by
  unfold setup_in_doc
  simp [hh, hhe]

theorem setup_exact_short {s v : Json} {e c : String}
    (hev : eventList s e = some v) (hex : exact_hook_exists v c = true)
    (f a : Bool) (pf po : HookAction) :
    setup_hook_for_event s e c f a pf po = .ok (s, .AlreadyExists, .noPrompt) := by
  obtain ⟨hv, hget, hvev⟩ : ∃ hv, s.get "hooks" = some hv ∧ hv.get e = some v := by
    unfold eventList at hev
    cases hg : s.get "hooks" with
    | none => rw [hg] at hev; simp at hev
    | some hv => rw [hg] at hev; exact ⟨hv, rfl, by simpa using hev⟩
  cases s with
  | obj sfields =>
      cases hv with
      | obj hooks =>
          have hh : lookupField sfields "hooks" = some (.obj hooks) := by
            simpa [Json.get] using hget
          have hhe : lookupField hooks e = some v := by
            simpa [Json.get] using hvev
          have hens : ensure_hooks (.obj sfields) = .ok (.obj sfields) := by
            unfold ensure_hooks
            rw [if_pos]
            simp [Json.get, hh]
          unfold setup_hook_for_event
          rw [hens]
          show setup_in_doc sfields e c f a pf po = _
          rw [setup_in_doc_eq_existing c f a pf po hh hhe]
          unfold setup_with_existing
          rw [if_pos hex]
      | null => simp [Json.get] at hvev
      | bool b => simp [Json.get] at hvev
      | num n => simp [Json.get] at hvev
      | str s => simp [Json.get] at hvev
      | arr xs => simp [Json.get] at hvev
  | null => simp [Json.get] at hget
  | bool b => simp [Json.get] at hget
  | num n => simp [Json.get] at hget
  | str s => simp [Json.get] at hget
  | arr xs => simp [Json.get] at hget

theorem run_ok_props {cfg : List (String × String)} {s : Json} {f a : Bool}
    {pfix poth : String → HookAction} {s' : Json} {rs : List (String × HookSetupResult)}
    (h : run_hooks_setup s cfg f a pfix poth = .ok (s', rs)) :
    (∀ k, k ≠ "hooks" → s'.get k = s.get k) ∧
      (∀ e, e ∉ cfg.map Prod.fst → eventList s' e = eventList s e) := by
  induction cfg generalizing s rs with
  | nil =>
      unfold run_hooks_setup at h
      cases h
      exact ⟨fun _ _ => rfl, fun _ _ => rfl⟩
  | cons q rest ih =>
      obtain ⟨e, c⟩ := q
      unfold run_hooks_setup at h
      split at h
      · cases h
      · next hstep =>
          split at h
          · cases h
          · next hrest =>
              cases h
              obtain ⟨hget1, hevl1, _⟩ := setup_ok_props hstep
              obtain ⟨hget2, hevl2⟩ := ih hrest
              refine ⟨fun k hk => (hget2 k hk).trans (hget1 k hk), ?_⟩
              intro e' he'
              simp only [List.map_cons, List.mem_cons, not_or] at he'
              exact (hevl2 e' he'.2).trans (hevl1 e' he'.1)

theorem run_establishes {cfg : List (String × String)} {s s₁ : Json} {f a : Bool}
    {pfix poth : String → HookAction} {rs : List (String × HookSetupResult)}
    (hnd : (cfg.map Prod.fst).Nodup)
    (h : run_hooks_setup s cfg f a pfix poth = .ok (s₁, rs))
    (hns : ∀ p ∈ rs, p.2 ≠ HookSetupResult.Skipped) :
    ∀ p ∈ cfg, ∃ v, eventList s₁ p.1 = some v ∧ exact_hook_exists v p.2 = true := by
  induction cfg generalizing s rs with
  | nil => simp
  | cons q rest ih =>
      obtain ⟨e, c⟩ := q
      simp only [List.map_cons, List.nodup_cons] at hnd
      obtain ⟨he_not, hnd'⟩ := hnd
      unfold run_hooks_setup at h
      split at h
      · cases h
      · next hstep =>
          split at h
          · cases h
          · next hrest =>
              cases h
              have hrne : (e, _).2 ≠ HookSetupResult.Skipped :=
                hns _ (List.mem_cons_self _ _)
              obtain ⟨_, _, hest⟩ := setup_ok_props hstep
              obtain ⟨v, hv, hx⟩ := hest hrne
              intro p hp
              rcases List.mem_cons.mp hp with rfl | hp'
              · obtain ⟨_, hfr⟩ := run_ok_props hrest
                exact ⟨v, by rw [hfr _ he_not]; exact hv, hx⟩
              · exact ih hnd' hrest (fun p hp => hns p (List.mem_cons_of_mem _ hp)) p hp'

theorem run_all_exact {cfg : List (String × String)} {s : Json} (f a : Bool)
    (pfix poth : String → HookAction)
    (hall : ∀ p ∈ cfg, ∃ v, eventList s p.1 = some v ∧ exact_hook_exists v p.2 = true) :
    run_hooks_setup s cfg f a pfix poth =
      .ok (s, cfg.map fun p => (p.1, HookSetupResult.AlreadyExists)) := by
  induction cfg with
  | nil => rfl
  | cons q rest ih =>
      obtain ⟨e, c⟩ := q
      obtain ⟨v, hv, hx⟩ := hall (e, c) (List.mem_cons_self _ _)
      unfold run_hooks_setup
      simp only [setup_exact_short hv hx f a (pfix e) (poth e),
        ih fun p hp => hall p (List.mem_cons_of_mem _ hp), List.map_cons]

theorem is_exact_toJson (g : HookGroup) (t : String) :
    is_exact_ccgadget_hook g.toJson t =
      (g.matcher == "" &&
        match g.hooks with
        | [e] => e.type == "command" && e.command == t
        | _ => false) := by
  obtain ⟨m, hs⟩ := g
  cases hs with
  | nil =>
      simp [HookGroup.toJson, is_exact_ccgadget_hook, Json.get, lookupField,
        Json.asStr, Json.asArr]
  | cons e hs' =>
      cases hs' with
      | nil =>
          simp [HookGroup.toJson, HookEntry.toJson, is_exact_ccgadget_hook, Json.get,
            lookupField, Json.asStr, Json.asArr]
      | cons e2 hs'' =>
          simp [HookGroup.toJson, HookEntry.toJson, is_exact_ccgadget_hook, Json.get,
            lookupField, Json.asStr, Json.asArr]

theorem any_map_eq {α β : Type} (f : α → β) (p : β → Bool) (l : List α) :
    (l.map f).any p = l.any fun x => p (f x) := by
  induction l with
  | nil => rfl
  | cons x xs ih => simp [ih]

theorem exact_refines (gl : List HookGroup) (t : String) :
    exact_hook_exists (encodeGroups gl) t = IsExactMatchSpec gl t := by
  unfold exact_hook_exists encodeGroups IsExactMatchSpec
  simp only [Json.asArr, any_map_eq, is_exact_toJson]

theorem contains_toJson (g : HookGroup) (t : String) :
    hook_group_contains_command g.toJson t =
      g.hooks.any fun e => strContains e.command t := by
  obtain ⟨m, hs⟩ := g
  simp [HookGroup.toJson, HookEntry.toJson, hook_group_contains_command, Json.get,
    lookupField, Json.asArr, Json.asStr, any_map_eq]

theorem any_refines (gl : List HookGroup) (t : String) :
    any_ccgadget_hook_exists (encodeGroups gl) t =
      gl.any fun g => g.hooks.any fun e => strContains e.command t := by
  simp only [any_ccgadget_hook_exists, encodeGroups, Json.asArr, any_map_eq,
    contains_toJson]

theorem has_non_ccgadget_refines (gl : List HookGroup) :
    has_non_ccgadget_hooks (encodeGroups gl) =
      gl.any fun g => !(g.hooks.any fun e => strContains e.command "ccgadget") := by
  simp only [has_non_ccgadget_hooks, encodeGroups, Json.asArr, any_map_eq,
    contains_toJson]

/-- A value that is neither a JSON object nor `null` (on which serde's
index-assignment panics). -/
def Json.isObjOrNull : Json → Bool
  | .obj _ => true
  | .null => true
  | _ => false

theorem has_non_imp_other {ev : Json} (h : has_non_ccgadget_hooks ev = true) :
    has_other_hooks ev = true := by
  unfold has_non_ccgadget_hooks at h
  unfold has_other_hooks
  revert h
  cases ev.asArr with
  | none => intro h; simp at h
  | some a =>
      intro h
      cases a with
      | nil => simp at h
      | cons x xs => simp

theorem contains_mk_hook_group (c : String) :
    hook_group_contains_command (mk_hook_group c) c = true := by
  simp [hook_group_contains_command, mk_hook_group, mk_hook_entry, Json.get, lookupField,
    Json.asArr, Json.asStr, strContains_refl]

theorem contains_trans_group {g : Json} {tgt pat : String}
    (hsub : strContains tgt pat = true)
    (h : hook_group_contains_command g tgt = true) :
    hook_group_contains_command g pat = true := by
  unfold hook_group_contains_command at h ⊢
  revert h
  cases (g.get "hooks").bind Json.asArr with
  | none => intro h; simp at h
  | some hooks =>
      intro h
      simp only [List.any_eq_true] at h ⊢
      obtain ⟨hook, hmem, hp⟩ := h
      refine ⟨hook, hmem, ?_⟩
      revert hp
      cases (hook.get "command").bind Json.asStr with
      | none => intro hp; simp at hp
      | some command => exact strContains_trans hsub

theorem is_exact_imp_contains {g : Json} {c : String} (hc : c ≠ "")
    (h : is_exact_ccgadget_hook g c = true) :
    hook_group_contains_command g c = true := by
  unfold is_exact_ccgadget_hook at h
  unfold hook_group_contains_command
  rw [Bool.and_eq_true] at h
  obtain ⟨_, h⟩ := h
  revert h
  cases (g.get "hooks").bind Json.asArr with
  | none => intro h; simp at h
  | some hooks =>
      intro h
      cases hooks with
      | nil => simp at h
      | cons hk tl =>
          cases tl with
          | cons hk2 tl2 => simp at h
          | nil =>
              simp only [Bool.and_eq_true, beq_iff_eq] at h
              simp only [List.any_cons, List.any_nil, Bool.or_false]
              revert h
              cases (hk.get "command").bind Json.asStr with
              | none =>
                  intro h
                  simp only [Option.getD_none] at h
                  exact absurd h.2.symm hc
              | some command =>
                  intro h
                  simp only [Option.getD_some] at h
                  simp only [h.2]
                  exact strContains_refl c

theorem exact_imp_any {v : Json} {c : String} (hc : c ≠ "")
    (h : exact_hook_exists v c = true) : any_ccgadget_hook_exists v c = true := by
  unfold exact_hook_exists at h
  unfold any_ccgadget_hook_exists
  revert h
  cases v.asArr with
  | none => intro h; simp at h
  | some a =>
      intro h
      simp only [List.any_eq_true] at h ⊢
      obtain ⟨g, hg, hx⟩ := h
      exact ⟨g, hg, is_exact_imp_contains hc hx⟩

theorem resolve_foreign_append (ev : Json) (cmd : String) (f : Bool) (pf : HookAction)
    (hany : any_ccgadget_hook_exists ev cmd = false) :
    (resolve_hook_action ev cmd f false pf .Append).1 = .Append := by
  unfold resolve_hook_action
  rw [hany]
  simp only [Bool.false_eq_true, if_false]
  split <;> [skip; rfl]
  split <;> rfl

theorem setup_append_path {settings : Json} {sfields hooks : List (String × Json)}
    {e tgt : String} {f a : Bool} {pf po : HookAction} {groups : List Json}
    (hs : settings = .obj sfields)
    (hh : lookupField sfields "hooks" = some (.obj hooks))
    (hev : lookupField hooks e = some (.arr groups))
    (hnex : exact_hook_exists (.arr groups) tgt = false)
    (hact : (resolve_hook_action (.arr groups) tgt f a pf po).1 = .Append) :
    setup_hook_for_event settings e tgt f a pf po =
      .ok (putHooks sfields hooks e
            (.arr (append_mutation groups (any_ccgadget_hook_exists (.arr groups) tgt) tgt)),
          .Added, (resolve_hook_action (.arr groups) tgt f a pf po).2) := by
  subst hs
  have hens : ensure_hooks (.obj sfields) = .ok (.obj sfields) := by
    unfold ensure_hooks
    rw [if_pos]
    simp [Json.get, hh]
  unfold setup_hook_for_event
  rw [hens]
  show setup_in_doc sfields e tgt f a pf po = _
  rw [setup_in_doc_eq_existing tgt f a pf po hh hev]
  unfold setup_with_existing
  rw [if_neg (by simp [hnex])]
  cases hres : resolve_hook_action (.arr groups) tgt f a pf po with
  | mk act used =>
      rw [hres] at hact
      simp only at hact
      subst hact
      simp [Json.asArr]

/-! ## Claim theorems -/

/-- C1: for an event with no exact match, the resolver selects Replace only
when a related ccgadget hook exists — authorized by force, autoApprove, or
the "fix mismatched hook" prompt — or when the "event has other hooks"
prompt itself returned Replace; and when only unrelated/foreign groups
exist with autoApprove unset, it never silently selects Replace: it
delegates to the interactive prompt regardless of force. -/
theorem C1_replace_bound (ev : Json) (cmd : String) (force auto : Bool)
    (pf po : HookAction) :
    ((resolve_hook_action ev cmd force auto pf po).1 = .Replace →
      (any_ccgadget_hook_exists ev cmd = true ∧
        (force = true ∨ auto = true ∨
          (pf = .Replace ∧ (resolve_hook_action ev cmd force auto pf po).2 = .fixPrompt))) ∨
      (any_ccgadget_hook_exists ev cmd = false ∧ po = .Replace ∧
        (resolve_hook_action ev cmd force auto pf po).2 = .otherPrompt)) ∧
    (any_ccgadget_hook_exists ev cmd = false → has_non_ccgadget_hooks ev = true →
      auto = false → resolve_hook_action ev cmd force auto pf po = (po, .otherPrompt)) := by
  constructor
  · intro hrep
    by_cases hany : any_ccgadget_hook_exists ev cmd = true
    · left
      refine ⟨hany, ?_⟩
      by_cases hf : force = true
      · exact Or.inl hf
      · by_cases ha : auto = true
        · exact Or.inr (Or.inl ha)
        · right; right
          have hres : resolve_hook_action ev cmd force auto pf po = (pf, .fixPrompt) := by
            simp [resolve_hook_action, hany, hf, ha]
          rw [hres] at hrep ⊢
          exact ⟨hrep, rfl⟩
    · right
      have hany' : any_ccgadget_hook_exists ev cmd = false := by
        simpa using hany
      refine ⟨hany', ?_⟩
      by_cases hoth : has_other_hooks ev = true
      · by_cases hnon : has_non_ccgadget_hooks ev = true
        · by_cases ha : auto = true
          · have hres : resolve_hook_action ev cmd force auto pf po = (.Append, .noPrompt) := by
              simp [resolve_hook_action, hany', hoth, hnon, ha]
            rw [hres] at hrep
            cases hrep
          · have hres : resolve_hook_action ev cmd force auto pf po = (po, .otherPrompt) := by
              simp [resolve_hook_action, hany', hoth, hnon, ha]
            rw [hres] at hrep ⊢
            exact ⟨hrep, rfl⟩
        · have hres : resolve_hook_action ev cmd force auto pf po = (.Append, .noPrompt) := by
            simp [resolve_hook_action, hany', hoth, hnon]
          rw [hres] at hrep
          cases hrep
      · have hres : resolve_hook_action ev cmd force auto pf po = (.Append, .noPrompt) := by
          simp [resolve_hook_action, hany', hoth]
        rw [hres] at hrep
        cases hrep
  · intro hany hnon hauto
    have hoth := has_non_imp_other hnon
    subst hauto
    simp [resolve_hook_action, hany, hnon, hoth]

/-- C1 witness: a single foreign group (`lint.sh`), force set, autoApprove
unset: the resolver consults the "other hooks" prompt and returns its
answer — Replace only because the prompt chose Replace. -/
theorem C1_replace_bound_witness :
    any_ccgadget_hook_exists
        (.arr [.obj [("matcher", .str "*.py"), ("hooks", .arr
          [.obj [("type", .str "command"), ("command", .str "lint.sh")]])]])
        "ccgadget trigger" = false ∧
    has_non_ccgadget_hooks
        (.arr [.obj [("matcher", .str "*.py"), ("hooks", .arr
          [.obj [("type", .str "command"), ("command", .str "lint.sh")]])]]) = true ∧
    resolve_hook_action
        (.arr [.obj [("matcher", .str "*.py"), ("hooks", .arr
          [.obj [("type", .str "command"), ("command", .str "lint.sh")]])]])
        "ccgadget trigger" true false .Skip .Replace = (.Replace, .otherPrompt) := by
  refine ⟨by decide, by decide, ?_⟩
  exact (C1_replace_bound
      (.arr [.obj [("matcher", .str "*.py"), ("hooks", .arr
        [.obj [("type", .str "command"), ("command", .str "lint.sh")]])]])
      "ccgadget trigger" true false .Skip .Replace).2 (by decide) (by decide) rfl

/-- C2: the code's exact-match test agrees on encoded hook-group lists with
the spec's IsExactMatch (some group with empty matcher, exactly one entry,
entry of type "command" and command string-equal to the target); it is
false for a non-empty matcher, for two or more entries, and whenever every
entry's command differs from the target (superstrings and substrings
included). -/
theorem C2_exact_match_characterization (gl : List HookGroup) (target : String) :
    exact_hook_exists (encodeGroups gl) target = IsExactMatchSpec gl target ∧
    (∀ g : HookGroup, g.matcher ≠ "" → is_exact_ccgadget_hook g.toJson target = false) ∧
    (∀ g : HookGroup, 2 ≤ g.hooks.length → is_exact_ccgadget_hook g.toJson target = false) ∧
    (∀ g : HookGroup, (∀ en ∈ g.hooks, en.command ≠ target) →
      is_exact_ccgadget_hook g.toJson target = false) := by
  refine ⟨exact_refines gl target, ?_, ?_, ?_⟩
  · intro g hg
    rw [is_exact_toJson]
    simp [hg]
  · intro g hg
    rw [is_exact_toJson]
    obtain ⟨m, hs⟩ := g
    cases hs with
    | nil => simp at hg
    | cons en tl =>
        cases tl with
        | nil => simp at hg
        | cons en2 tl2 => simp
  · intro g hg
    rw [is_exact_toJson]
    obtain ⟨m, hs⟩ := g
    cases hs with
    | nil => simp
    | cons en tl =>
        cases tl with
        | nil =>
            have hne := hg en (by simp)
            simp [hne]
        | cons en2 tl2 => simp

/-- C2 witness: the characterization applied at the canonical binding, with
a wrong-matcher group, a two-entry group, and a superstring-command group
all rejected. -/
theorem C2_exact_match_characterization_witness :
    exact_hook_exists (encodeGroups [⟨"", [⟨"command", "ccgadget trigger"⟩]⟩])
        "ccgadget trigger"
      = IsExactMatchSpec [⟨"", [⟨"command", "ccgadget trigger"⟩]⟩] "ccgadget trigger" ∧
    is_exact_ccgadget_hook (HookGroup.toJson ⟨"*.py", [⟨"command", "ccgadget trigger"⟩]⟩)
        "ccgadget trigger" = false ∧
    is_exact_ccgadget_hook (HookGroup.toJson
        ⟨"", [⟨"command", "ccgadget trigger"⟩, ⟨"command", "echo hi"⟩]⟩)
        "ccgadget trigger" = false ∧
    is_exact_ccgadget_hook (HookGroup.toJson ⟨"", [⟨"command", "ccgadget trigger --fast"⟩]⟩)
        "ccgadget trigger" = false := by
  obtain ⟨h1, h2, h3, h4⟩ :=
    C2_exact_match_characterization [⟨"", [⟨"command", "ccgadget trigger"⟩]⟩]
      "ccgadget trigger"
  exact ⟨h1, h2 _ (by decide), h3 _ (by decide), h4 _ (by decide)⟩

/-- C8: a reconciliation run only ever mutates the "hooks" key: every other
top-level key of the loaded document is present with an unaltered value in
the resulting document. -/
theorem C8_untouched_top_level_keys {cfg : List (String × String)} {s : Json}
    {f a : Bool} {pfix poth : String → HookAction} {s' : Json}
    {rs : List (String × HookSetupResult)}
    (h : run_hooks_setup s cfg f a pfix poth = .ok (s', rs)) :
    ∀ k, k ≠ "hooks" → s'.get k = s.get k :=
  (run_ok_props h).1

/-- C8 witness: a run over a document with an unrelated "model" key leaves
that key's value untouched. -/
theorem C8_untouched_top_level_keys_witness :
    Json.get (.obj [("model", .str "opus"),
        ("hooks", .obj [("Stop", mk_hook_config "ccgadget trigger")])]) "model"
      = Json.get (.obj [("model", .str "opus")]) "model" :=
  C8_untouched_top_level_keys
    (show run_hooks_setup (.obj [("model", .str "opus")]) [("Stop", "ccgadget trigger")]
        false false (fun _ => HookAction.Skip) (fun _ => HookAction.Skip)
      = .ok (.obj [("model", .str "opus"),
          ("hooks", .obj [("Stop", mk_hook_config "ccgadget trigger")])],
          [("Stop", HookSetupResult.Added)]) from rfl)
    "model" (by decide)

/-- C9: on the empty settings document {} with desired binding
("UserPromptSubmit", "ccgadget trigger"), the run stores exactly
[{"matcher":"","hooks":[{"type":"command","command":"ccgadget trigger"}]}]
under hooks.UserPromptSubmit and reports Added, for every flag combination
and prompt responder. -/
theorem C9_added_on_absent_event (force auto : Bool)
    (pfix poth : String → HookAction) :
    run_hooks_setup (.obj []) [("UserPromptSubmit", "ccgadget trigger")]
        force auto pfix poth
      = .ok (.obj [("hooks", .obj [("UserPromptSubmit",
          .arr [.obj [("matcher", .str ""),
            ("hooks", .arr [.obj [("type", .str "command"),
              ("command", .str "ccgadget trigger")]])]])])],
        [("UserPromptSubmit", .Added)]) := rfl

/-- C10: a group whose "matcher" field is absent, or present but not a
string, is treated exactly like matcher == "" by the exact-match test, and
a re-run against such a group (with the single expected entry) returns
AlreadyExists with the document unchanged and no prompt consulted. -/
theorem C10_matcher_defaulting (mJson hooksJson : Json) (target e : String)
    (force auto : Bool) (pf po : HookAction)
    (hm : mJson.asStr = none) :
    (is_exact_ccgadget_hook (.obj [("matcher", mJson), ("hooks", hooksJson)]) target
      = is_exact_ccgadget_hook (.obj [("matcher", .str ""), ("hooks", hooksJson)]) target) ∧
    (is_exact_ccgadget_hook (.obj [("hooks", hooksJson)]) target
      = is_exact_ccgadget_hook (.obj [("matcher", .str ""), ("hooks", hooksJson)]) target) ∧
    setup_hook_for_event
        (.obj [("hooks", .obj [(e, .arr [.obj [("hooks", .arr [mk_hook_entry target])]])])])
        e target force auto pf po
      = .ok (.obj [("hooks",
            .obj [(e, .arr [.obj [("hooks", .arr [mk_hook_entry target])]])])],
          .AlreadyExists, .noPrompt) := by
  refine ⟨?_, ?_, ?_⟩
  · unfold is_exact_ccgadget_hook
    have h1 : ((Json.obj [("matcher", mJson), ("hooks", hooksJson)]).get "matcher").bind
        Json.asStr = none := by
      simp [Json.get, lookupField, hm]
    have h2 : ((Json.obj [("matcher", Json.str ""), ("hooks", hooksJson)]).get
        "matcher").bind Json.asStr = some "" := by
      simp [Json.get, lookupField, Json.asStr]
    have h3 : (Json.obj [("matcher", mJson), ("hooks", hooksJson)]).get "hooks"
        = some hooksJson := by
      simp [Json.get, lookupField]
    have h4 : (Json.obj [("matcher", Json.str ""), ("hooks", hooksJson)]).get "hooks"
        = some hooksJson := by
      simp [Json.get, lookupField]
    rw [h1, h2, h3, h4]
    simp
  · unfold is_exact_ccgadget_hook
    have h1 : ((Json.obj [("hooks", hooksJson)]).get "matcher").bind Json.asStr
        = none := by
      simp [Json.get, lookupField]
    have h2 : ((Json.obj [("matcher", Json.str ""), ("hooks", hooksJson)]).get
        "matcher").bind Json.asStr = some "" := by
      simp [Json.get, lookupField, Json.asStr]
    have h3 : (Json.obj [("hooks", hooksJson)]).get "hooks" = some hooksJson := by
      simp [Json.get, lookupField]
    have h4 : (Json.obj [("matcher", Json.str ""), ("hooks", hooksJson)]).get "hooks"
        = some hooksJson := by
      simp [Json.get, lookupField]
    rw [h1, h2, h3, h4]
    simp
  · apply setup_exact_short
      (v := .arr [.obj [("hooks", .arr [mk_hook_entry target])]])
    · simp [eventList, Json.get, lookupField]
    · simp [exact_hook_exists, Json.asArr, is_exact_ccgadget_hook, Json.get, lookupField,
        Json.asStr, mk_hook_entry]

/-- C10 witness: a numeric matcher field with the expected single entry is
an exact match and yields AlreadyExists without prompting. -/
theorem C10_matcher_defaulting_witness :
    (is_exact_ccgadget_hook
        (.obj [("matcher", .num 3), ("hooks", .arr [mk_hook_entry "ccgadget trigger"])])
        "ccgadget trigger"
      = is_exact_ccgadget_hook
        (.obj [("matcher", .str ""), ("hooks", .arr [mk_hook_entry "ccgadget trigger"])])
        "ccgadget trigger") ∧
    (is_exact_ccgadget_hook
        (.obj [("hooks", .arr [mk_hook_entry "ccgadget trigger"])]) "ccgadget trigger"
      = is_exact_ccgadget_hook
        (.obj [("matcher", .str ""), ("hooks", .arr [mk_hook_entry "ccgadget trigger"])])
        "ccgadget trigger") ∧
    setup_hook_for_event
        (.obj [("hooks", .obj [("Stop",
          .arr [.obj [("hooks", .arr [mk_hook_entry "ccgadget trigger"])]])])])
        "Stop" "ccgadget trigger" true true .Skip .Skip
      = .ok (.obj [("hooks", .obj [("Stop",
            .arr [.obj [("hooks", .arr [mk_hook_entry "ccgadget trigger"])]])])],
          .AlreadyExists, .noPrompt) :=
  C10_matcher_defaulting (.num 3) (.arr [mk_hook_entry "ccgadget trigger"])
    "ccgadget trigger" "Stop" true true .Skip .Skip rfl

/-- A stale related hook group (command contains the target as a strict
superstring), used in the C3 counterexample. -/
def c3_stale_group : Json :=
  .obj [("matcher", .str ""), ("hooks", .arr
    [.obj [("type", .str "command"), ("command", .str "ccgadget trigger --legacy")]])]

/-- C3 counterexample: a document whose only group for "Stop" is a stale
*related* (not foreign) ccgadget hook, with default flags and a prompt
that answers Skip. The run leaves the document unchanged and reports
Skipped, so the second run — on the identical document — also reports
Skipped, not AlreadyExists, although no foreign hooks exist. -/
theorem C3_counterexample :
    has_non_ccgadget_hooks (.arr [c3_stale_group]) = false ∧
    run_hooks_setup (.obj [("hooks", .obj [("Stop", .arr [c3_stale_group])])])
        [("Stop", "ccgadget trigger")] false false (fun _ => .Skip) (fun _ => .Skip)
      = .ok (.obj [("hooks", .obj [("Stop", .arr [c3_stale_group])])],
          [("Stop", HookSetupResult.Skipped)]) ∧
    HookSetupResult.Skipped ≠ HookSetupResult.AlreadyExists :=
  ⟨by decide, rfl, by decide⟩

/-- C3 amended: if the first reconciliation run succeeds, skips no event,
and the desired bindings carry pairwise-distinct event names, then a second
run with the same bindings, flags and prompts returns the document
unchanged and AlreadyExists for every event (each step short-circuits on
the exact match without prompting or mutating). -/
theorem C3_idempotent_second_run {cfg : List (String × String)} {s s₁ : Json}
    {f a : Bool} {pfix poth : String → HookAction}
    {rs₁ : List (String × HookSetupResult)}
    (hnd : (cfg.map Prod.fst).Nodup)
    (h1 : run_hooks_setup s cfg f a pfix poth = .ok (s₁, rs₁))
    (hns : ∀ p ∈ rs₁, p.2 ≠ HookSetupResult.Skipped) :
    run_hooks_setup s₁ cfg f a pfix poth
      = .ok (s₁, cfg.map fun p => (p.1, HookSetupResult.AlreadyExists)) :=
  run_all_exact f a pfix poth (run_establishes hnd h1 hns)

/-- C3 witness: the full five-event configuration run from the empty
document installs every hook; the second run returns the same document and
AlreadyExists everywhere. -/
theorem C3_idempotent_second_run_witness :
    run_hooks_setup
        (.obj [("hooks", .obj
          [("UserPromptSubmit", mk_hook_config "ccgadget trigger"),
           ("PreToolUse", mk_hook_config "ccgadget trigger"),
           ("PostToolUse", mk_hook_config "ccgadget trigger"),
           ("Notification", mk_hook_config "ccgadget trigger"),
           ("Stop", mk_hook_config "ccgadget trigger")])])
        get_all_hooks_config false false (fun _ => HookAction.Skip)
        (fun _ => HookAction.Skip)
      = .ok (.obj [("hooks", .obj
          [("UserPromptSubmit", mk_hook_config "ccgadget trigger"),
           ("PreToolUse", mk_hook_config "ccgadget trigger"),
           ("PostToolUse", mk_hook_config "ccgadget trigger"),
           ("Notification", mk_hook_config "ccgadget trigger"),
           ("Stop", mk_hook_config "ccgadget trigger")])],
          [("UserPromptSubmit", HookSetupResult.AlreadyExists),
           ("PreToolUse", HookSetupResult.AlreadyExists),
           ("PostToolUse", HookSetupResult.AlreadyExists),
           ("Notification", HookSetupResult.AlreadyExists),
           ("Stop", HookSetupResult.AlreadyExists)]) :=
  C3_idempotent_second_run (by decide)
    (show run_hooks_setup (.obj []) get_all_hooks_config false false
        (fun _ => HookAction.Skip) (fun _ => HookAction.Skip)
      = .ok (.obj [("hooks", .obj
          [("UserPromptSubmit", mk_hook_config "ccgadget trigger"),
           ("PreToolUse", mk_hook_config "ccgadget trigger"),
           ("PostToolUse", mk_hook_config "ccgadget trigger"),
           ("Notification", mk_hook_config "ccgadget trigger"),
           ("Stop", mk_hook_config "ccgadget trigger")])],
          [("UserPromptSubmit", HookSetupResult.Added),
           ("PreToolUse", HookSetupResult.Added),
           ("PostToolUse", HookSetupResult.Added),
           ("Notification", HookSetupResult.Added),
           ("Stop", HookSetupResult.Added)]) from rfl)
    (by decide)

/-- C5 counterexample: the claim's HasUnrelatedGroups (some group whose
entries do not all contain the target) disagrees with the code's test: a
group holding the exact target entry plus one unrelated entry is unrelated
per the claim but not foreign for the code, and a group whose only command
is "ccgadget-helper sync" is unrelated to the target "ccgadget trigger"
per the claim's substring notion yet not foreign for the code, which only
checks the fixed substring "ccgadget". -/
theorem C5_counterexample :
    HasUnrelatedGroupsSpec
        [⟨"", [⟨"command", "ccgadget trigger"⟩, ⟨"command", "make lint"⟩]⟩]
        "ccgadget trigger" = true ∧
    has_non_ccgadget_hooks (encodeGroups
        [⟨"", [⟨"command", "ccgadget trigger"⟩, ⟨"command", "make lint"⟩]⟩]) = false ∧
    hook_group_contains_command
        (HookGroup.toJson ⟨"", [⟨"command", "ccgadget-helper sync"⟩]⟩)
        "ccgadget trigger" = false ∧
    has_non_ccgadget_hooks
        (encodeGroups [⟨"", [⟨"command", "ccgadget-helper sync"⟩]⟩]) = false :=
  ⟨by decide, by decide, by decide, by decide⟩

/-- C5 amended: the foreign-hook test the resolver actually uses is true
iff some HookGroup holds no entry whose command contains the literal
substring "ccgadget"; the target command is not consulted. -/
theorem C5_foreign_test_amended (gl : List HookGroup) :
    has_non_ccgadget_hooks (encodeGroups gl) =
      gl.any fun g => !(g.hooks.any fun en => strContains en.command "ccgadget") :=
  has_non_ccgadget_refines gl

/-- A stale related group: its command contains the target. Used by the C4
theorems. -/
def c4_stale_group : Json :=
  .obj [("matcher", .str ""), ("hooks", .arr
    [.obj [("type", .str "command"), ("command", .str "ccgadget trigger --old")]])]

/-- A bystander group whose command contains "ccgadget" but not the target
command, so it is unrelated to the target yet removed by the Append
deduplication. Used by the C4 theorems. -/
def c4_bystander_group : Json :=
  .obj [("matcher", .str ""), ("hooks", .arr
    [.obj [("type", .str "command"), ("command", .str "ccgadget-helper sync")]])]

/-- C4 counterexample: with a stale related group plus a bystander group
that is unrelated to the target (its command does not contain
"ccgadget trigger"), an Append chosen at the fix prompt removes the
bystander as well — the output list holds only the fresh group, so not
every group unrelated to the target is preserved. -/
theorem C4_counterexample :
    hook_group_contains_command c4_bystander_group "ccgadget trigger" = false ∧
    setup_hook_for_event
        (.obj [("hooks", .obj [("Stop", .arr [c4_stale_group, c4_bystander_group])])])
        "Stop" "ccgadget trigger" false false .Append .Skip
      = .ok (.obj [("hooks", .obj [("Stop", .arr [mk_hook_group "ccgadget trigger"])])],
          .Added, .fixPrompt) ∧
    c4_bystander_group ≠ mk_hook_group "ccgadget trigger" := by
  refine ⟨by decide, rfl, ?_⟩
  intro hcontra
  simp [c4_bystander_group, mk_hook_group, mk_hook_entry] at hcontra

/-- C4 amended: when Append is the resolved action for an event with a
related entry present, the code first removes every group containing the
literal substring "ccgadget" — a superset of the target-related groups
whenever the target itself contains "ccgadget" — then pushes one fresh
group onto the end; afterwards exactly one group related to the target
remains, and the groups that never mention "ccgadget" are preserved
unchanged, in their original order, before it. -/
theorem C4_append_dedup_amended {settings : Json}
    {sfields hooks : List (String × Json)} {e tgt : String} {f a : Bool}
    {pf po : HookAction} {groups : List Json}
    (hs : settings = .obj sfields)
    (hh : lookupField sfields "hooks" = some (.obj hooks))
    (hev : lookupField hooks e = some (.arr groups))
    (hnex : exact_hook_exists (.arr groups) tgt = false)
    (hany : any_ccgadget_hook_exists (.arr groups) tgt = true)
    (hact : (resolve_hook_action (.arr groups) tgt f a pf po).1 = .Append) :
    ∃ s', setup_hook_for_event settings e tgt f a pf po
        = .ok (s', .Added, (resolve_hook_action (.arr groups) tgt f a pf po).2) ∧
      eventList s' e = some (.arr
        ((groups.filter fun g => !hook_group_contains_command g "ccgadget")
          ++ [mk_hook_group tgt])) ∧
      (strContains tgt "ccgadget" = true →
        ((groups.filter fun g => !hook_group_contains_command g "ccgadget")
            ++ [mk_hook_group tgt]).countP
            (fun g => hook_group_contains_command g tgt) = 1) := by
  have hstep := setup_append_path hs hh hev hnex hact
  rw [hany] at hstep
  have hmut : append_mutation groups true tgt =
      (groups.filter fun g => !hook_group_contains_command g "ccgadget")
        ++ [mk_hook_group tgt] := by
    simp [append_mutation]
  rw [hmut] at hstep
  refine ⟨_, hstep, eventList_putHooks_self _ _ _ _, ?_⟩
  intro hsub
  rw [List.countP_append]
  have h1 : (groups.filter fun g => !hook_group_contains_command g "ccgadget").countP
      (fun g => hook_group_contains_command g tgt) = 0 := by
    rw [List.countP_eq_zero]
    intro g hg
    have hgf := List.of_mem_filter hg
    simp only [Bool.not_eq_true'] at hgf
    intro hgc
    rw [contains_trans_group hsub hgc] at hgf
    cases hgf
  have h2 : ([mk_hook_group tgt]).countP
      (fun g => hook_group_contains_command g tgt) = 1 := by
    simp [List.countP_cons, contains_mk_hook_group]
  rw [h1, h2]

/-- C4 witness: the amended statement instantiated at a two-group list
(stale related group plus "ccgadget"-mentioning bystander). -/
theorem C4_append_dedup_amended_witness :
    ∃ s', setup_hook_for_event
        (.obj [("hooks", .obj [("UserPromptSubmit",
          .arr [c4_stale_group, c4_bystander_group])])])
        "UserPromptSubmit" "ccgadget trigger" false false .Append .Skip
      = .ok (s', .Added,
          (resolve_hook_action (.arr [c4_stale_group, c4_bystander_group])
            "ccgadget trigger" false false .Append .Skip).2) ∧
      eventList s' "UserPromptSubmit" = some (.arr
        (([c4_stale_group, c4_bystander_group].filter
            fun g => !hook_group_contains_command g "ccgadget")
          ++ [mk_hook_group "ccgadget trigger"])) ∧
      (strContains "ccgadget trigger" "ccgadget" = true →
        (([c4_stale_group, c4_bystander_group].filter
            fun g => !hook_group_contains_command g "ccgadget")
            ++ [mk_hook_group "ccgadget trigger"]).countP
            (fun g => hook_group_contains_command g "ccgadget trigger") = 1) :=
  C4_append_dedup_amended rfl rfl rfl (by decide) (by decide) (by decide)

/-- C6: for an event whose existing list has no related groups (only
unrelated/foreign ones, or none that are related), with autoApprove unset
and the interactive prompt answering Append, the new list is exactly the
old list with the fresh group appended: length old + 1, every pre-existing
group kept unchanged and in order, the new group last. The target command
is assumed non-empty (it is "ccgadget trigger" in this program). -/
theorem C6_foreign_only_append {settings : Json}
    {sfields hooks : List (String × Json)} {e tgt : String} {force : Bool}
    {pf : HookAction} {groups : List Json}
    (hs : settings = .obj sfields)
    (hh : lookupField sfields "hooks" = some (.obj hooks))
    (hev : lookupField hooks e = some (.arr groups))
    (htgt : tgt ≠ "")
    (hany : any_ccgadget_hook_exists (.arr groups) tgt = false) :
    ∃ s', setup_hook_for_event settings e tgt force false pf .Append
        = .ok (s', .Added,
            (resolve_hook_action (.arr groups) tgt force false pf .Append).2) ∧
      eventList s' e = some (.arr (groups ++ [mk_hook_group tgt])) ∧
      (groups ++ [mk_hook_group tgt]).length = groups.length + 1 := by
  have hnex : exact_hook_exists (.arr groups) tgt = false := by
    cases hx : exact_hook_exists (.arr groups) tgt
    · rfl
    · exact absurd (exact_imp_any htgt hx) (by simp [hany])
  have hact := resolve_foreign_append (.arr groups) tgt force pf hany
  have hstep := setup_append_path hs hh hev hnex hact
  rw [hany] at hstep
  have hmut : append_mutation groups false tgt = groups ++ [mk_hook_group tgt] := by
    simp [append_mutation]
  rw [hmut] at hstep
  exact ⟨_, hstep, eventList_putHooks_self _ _ _ _, by simp⟩

/-- C6 witness: one foreign lint group, autoApprove unset, prompt answering
Append — the lint group survives unchanged in front of the fresh group. -/
theorem C6_foreign_only_append_witness :
    ∃ s', setup_hook_for_event
        (.obj [("hooks", .obj [("PreToolUse", .arr
          [.obj [("matcher", .str "*.py"), ("hooks", .arr
            [.obj [("type", .str "command"), ("command", .str "lint.sh")]])]])])])
        "PreToolUse" "ccgadget trigger" false false .Skip .Append
      = .ok (s', .Added,
          (resolve_hook_action
            (.arr [.obj [("matcher", .str "*.py"), ("hooks", .arr
              [.obj [("type", .str "command"), ("command", .str "lint.sh")]])]])
            "ccgadget trigger" false false .Skip .Append).2) ∧
      eventList s' "PreToolUse" = some (.arr
        ([.obj [("matcher", .str "*.py"), ("hooks", .arr
          [.obj [("type", .str "command"), ("command", .str "lint.sh")]])]]
          ++ [mk_hook_group "ccgadget trigger"])) ∧
      ([Json.obj [("matcher", .str "*.py"), ("hooks", .arr
          [.obj [("type", .str "command"), ("command", .str "lint.sh")]])]]
        ++ [mk_hook_group "ccgadget trigger"]).length
        = [Json.obj [("matcher", .str "*.py"), ("hooks", .arr
            [.obj [("type", .str "command"), ("command", .str "lint.sh")]])]].length + 1 :=
  C6_foreign_only_append rfl rfl rfl (by decide) (by decide)

/-- A structurally invalid hook group: its "hooks" field is a number, not
an array. Used by the C7 theorems. -/
def c7_invalid_group : Json := .obj [("matcher", .str ""), ("hooks", .num 5)]

/-- C7 counterexample: a HookGroup whose "hooks" field is not an array does
NOT abort the run: it is treated as a group unrelated to ccgadget, and an
auto-approved run appends the fresh group next to it and reports Added. -/
theorem C7_counterexample :
    (Json.get c7_invalid_group "hooks").bind Json.asArr = none ∧
    setup_hook_for_event
        (.obj [("hooks", .obj [("Stop", .arr [c7_invalid_group])])])
        "Stop" "ccgadget trigger" false true .Skip .Skip
      = .ok (.obj [("hooks", .obj [("Stop",
          .arr [c7_invalid_group, mk_hook_group "ccgadget trigger"])])],
          .Added, .noPrompt) :=
  ⟨rfl, rfl⟩

/-- C7 amended: a parsed settings value that is neither a JSON object nor
null makes the per-event step fail before producing any document (the
serde index-assignment panic, modelled as an error), and a hooks[event]
value that exists but is not an array fails the step with
"Event hooks must be an array"; either failure aborts the run before the
final write, so nothing is persisted. A structurally invalid HookGroup
inside an event array, however, does not abort (see the counterexample). -/
theorem C7_abort_amended (s₁ : Json) (sfields hooks : List (String × Json)) (v : Json)
    (e c : String) (f a : Bool) (pf po : HookAction) :
    (s₁.isObjOrNull = false → ∃ msg, setup_hook_for_event s₁ e c f a pf po = .error msg) ∧
    (lookupField sfields "hooks" = some (.obj hooks) → lookupField hooks e = some v →
      v.asArr = none →
      setup_hook_for_event (.obj sfields) e c f a pf po
        = .error "Event hooks must be an array") := by
  constructor
  · intro hno
    cases s₁ with
    | obj fs => simp [Json.isObjOrNull] at hno
    | null => simp [Json.isObjOrNull] at hno
    | bool b => exact ⟨_, rfl⟩
    | num n => exact ⟨_, rfl⟩
    | str s => exact ⟨_, rfl⟩
    | arr xs => exact ⟨_, rfl⟩
  · intro hh hev hv
    have hens : ensure_hooks (.obj sfields) = .ok (.obj sfields) := by
      unfold ensure_hooks
      rw [if_pos]
      simp [Json.get, hh]
    have hnex : exact_hook_exists v c = false := by
      simp [exact_hook_exists, hv]
    have hres : resolve_hook_action v c f a pf po = (.Append, .noPrompt) := by
      simp [resolve_hook_action, any_ccgadget_hook_exists, has_other_hooks, hv]
    unfold setup_hook_for_event
    rw [hens]
    show setup_in_doc sfields e c f a pf po = _
    rw [setup_in_doc_eq_existing c f a pf po hh hev]
    unfold setup_with_existing
    rw [if_neg (by simp [hnex]), hres]
    simp [hv]

/-- C7 witness: an array document fails the per-event step, and a document
whose hooks.Stop value is the number 7 fails with the array-shape error. -/
theorem C7_abort_amended_witness :
    (∃ msg, setup_hook_for_event (.arr []) "Stop" "ccgadget trigger" false false
        .Skip .Skip = .error msg) ∧
    setup_hook_for_event (.obj [("hooks", .obj [("Stop", .num 7)])])
        "Stop" "ccgadget trigger" false false .Skip .Skip
      = .error "Event hooks must be an array" := by
  obtain ⟨h1, h2⟩ := C7_abort_amended (.arr []) [("hooks", .obj [("Stop", .num 7)])]
    [("Stop", .num 7)] (.num 7) "Stop" "ccgadget trigger" false false .Skip .Skip
  exact ⟨h1 rfl, h2 rfl rfl rfl⟩
